import Mathlib

/-!
Verification development for the query module of `aw-server-rust`
(`src/query/mod.rs`): a small scripting engine consisting of a tokenizer,
a precedence-climbing grammar, an AST and a tree-walking evaluator.

Modelling conventions:
- Rust `f64` is modelled by `F64`: NaN, signed infinities, and finite values
  represented as exact rationals.  Rounding to 53-bit precision is not
  modelled; no theorem below depends on rounding.  The special-value rules
  (NaN propagation, infinity arithmetic, the IEEE remainder of a zero
  divisor being NaN) follow IEEE 754 as Rust implements them.
- Rust panics (`panic!`) are modelled by an explicit `crash` outcome; the
  process-aborting behaviour becomes a distinguished value so that theorems
  can talk about it.
- `HashMap<&str, DataType>` is modelled as an association list with
  replace-on-insert semantics; only `insert` and `get` are used by the code.
- Source spans are not modelled: no claim below depends on them, and the
  reference implementation computes them by pointer arithmetic.
- The `plex`-generated lexer does maximal-munch matching with rule order as
  the tie-break; `next_token` below implements exactly that over the rule
  set of the source.  The generated LALR parser is modelled by a fuel-based
  functional parser implementing the grammar productions verbatim; fuel is
  a totalisation device only.
- Output side effects (`println!` in `q_print` and in the `Return` case)
  are not modelled; no claim depends on the emitted text.
-/

/-- Euclid's algorithm with explicit fuel, so that the kernel can evaluate
it (the first argument strictly decreases, so `a + 1` steps suffice). -/
def gcdAux : Nat → Nat → Nat → Nat
  | 0, a, b => a + b
  | _ + 1, 0, b => b
  | f + 1, a + 1, b => gcdAux f (b % (a + 1)) (a + 1)

def natGcd (a b : Nat) : Nat := gcdAux (a + 1) a b

/-- Exact rationals in lowest terms with positive denominator, used as the
finite values of the `f64` model.  A bespoke type rather than `ℚ` so that
every operation reduces inside the kernel. -/
structure Q where
  num : ℤ
  den : ℤ
deriving DecidableEq

/-- Bring `n / d` (with `d ≠ 0`) to lowest terms with positive
denominator.  The divisions are exact, so T-division is safe. -/
def qNormalize (n d : ℤ) : Q :=
  if n = 0 then ⟨0, 1⟩
  else
    let g : ℤ := (natGcd n.natAbs d.natAbs : ℤ)
    let s : ℤ := if d < 0 then -1 else 1
    ⟨s * n / g, s * d / g⟩

def Q.add (a b : Q) : Q := qNormalize (a.num * b.den + b.num * a.den) (a.den * b.den)

def Q.sub (a b : Q) : Q := qNormalize (a.num * b.den - b.num * a.den) (a.den * b.den)

def Q.mul (a b : Q) : Q := qNormalize (a.num * b.num) (a.den * b.den)

/-- Exact division; callers guarantee `b` is nonzero. -/
def Q.div (a b : Q) : Q := qNormalize (a.num * b.den) (a.den * b.num)

def Q.ofNat (n : Nat) : Q := ⟨(n : ℤ), 1⟩

def Q.ofInt (n : ℤ) : Q := ⟨n, 1⟩

def Q.isZero (a : Q) : Bool := a.num = 0

def Q.isNeg (a : Q) : Bool := a.num < 0

/-- Truncation towards zero (`Int` division is T-division). -/
def Q.trunc (a : Q) : ℤ := a.num / a.den

/-- Model of Rust `f64`: NaN, infinities (`neg` is the sign bit), and finite
values as exact rationals (idealised: no rounding, no negative zero). -/
inductive F64 where
  | nan
  | inf (neg : Bool)
  | fin (q : Q)
deriving DecidableEq

/-- IEEE addition on the model. -/
def F64.add : F64 → F64 → F64
  | .nan, _ => .nan
  | _, .nan => .nan
  | .inf s, .inf t => if s = t then .inf s else .nan
  | .inf s, .fin _ => .inf s
  | .fin _, .inf t => .inf t
  | .fin a, .fin b => .fin (a.add b)

/-- IEEE subtraction on the model. -/
def F64.sub : F64 → F64 → F64
  | .nan, _ => .nan
  | _, .nan => .nan
  | .inf s, .inf t => if s = t then .nan else .inf s
  | .inf s, .fin _ => .inf s
  | .fin _, .inf t => .inf (!t)
  | .fin a, .fin b => .fin (a.sub b)

/-- IEEE multiplication on the model. -/
def F64.mul : F64 → F64 → F64
  | .nan, _ => .nan
  | _, .nan => .nan
  | .inf s, .inf t => .inf (xor s t)
  | .inf s, .fin b => if b.isZero then .nan else .inf (xor s b.isNeg)
  | .fin a, .inf t => if a.isZero then .nan else .inf (xor a.isNeg t)
  | .fin a, .fin b => .fin (a.mul b)

/-- IEEE division on the model (`1/0 = +inf`, `0/0 = NaN`). -/
def F64.div : F64 → F64 → F64
  | .nan, _ => .nan
  | _, .nan => .nan
  | .inf _, .inf _ => .nan
  | .inf s, .fin b => .inf (xor s b.isNeg)
  | .fin _, .inf _ => .fin ⟨0, 1⟩
  | .fin a, .fin b =>
      if b.isZero then (if a.isZero then .nan else .inf a.isNeg)
      else .fin (a.div b)

/-- Rust `%` on `f64` (`fmod`): remainder with truncated quotient; a zero
divisor yields NaN. -/
def F64.mod : F64 → F64 → F64
  | .nan, _ => .nan
  | _, .nan => .nan
  | .inf _, _ => .nan
  | .fin a, .inf _ => .fin a
  | .fin a, .fin b =>
      if b.isZero then .nan
      else .fin (a.sub (b.mul (Q.ofInt ((a.div b).trunc))))

/-- The Rust comparison `x == 0.0` (false on NaN and infinities). -/
def F64.isZero : F64 → Bool
  | .fin q => q.isZero
  | _ => false

/-- The token type of the lexer (`lexer::Token`).  `Whitespace` and
`Comment` are produced by `next_token` and filtered by the iterator. -/
inductive Token where
  | ident (s : String)
  | retKw
  | number (n : F64)
  | string (s : String)
  | equals
  | plus
  | minus
  | star
  | slash
  | percent
  | lparen
  | rparen
  | lbracket
  | rbracket
  | comma
  | semi
  | whitespace
  | comment
deriving DecidableEq

/-- The double-quote character, kept out of literals for readability. -/
def quoteChar : Char := Char.ofNat 34

def isWsChar (c : Char) : Bool := c = ' ' || c = '\t' || c = '\r' || c = '\n'

def isIdentStart (c : Char) : Bool := c.isAlpha || c = '_'

def isIdentCont (c : Char) : Bool := isIdentStart c || c.isDigit

/-- Length matched by the whitespace rule (0 = no match). -/
def wsMatch (cs : List Char) : Nat := (cs.takeWhile isWsChar).length

/-- Length matched by the line-comment rule. -/
def commentMatch : List Char → Nat
  | '#' :: rest => 1 + (rest.takeWhile (fun c => !(c = '\n'))).length
  | _ => 0

/-- Length matched by the keyword rule for the return keyword. -/
def returnMatch (cs : List Char) : Nat :=
  if cs.take 6 = ['r', 'e', 't', 'u', 'r', 'n'] then 6 else 0

/-- Length matched by the string-literal rule: a quote, any run of
non-quote characters, and a closing quote. -/
def stringMatch : List Char → Nat
  | [] => 0
  | c :: rest =>
      if c = quoteChar then
        let inner := rest.takeWhile (fun d => !(d = quoteChar))
        if inner.length < rest.length then inner.length + 2 else 0
      else 0

/-- Length matched by the numeric-literal rule: digits, an optional dot,
optional further digits. -/
def numberMatch (cs : List Char) : Nat :=
  let d := (cs.takeWhile Char.isDigit).length
  if d = 0 then 0
  else
    match cs.drop d with
    | '.' :: rest => d + 1 + (rest.takeWhile Char.isDigit).length
    | _ => d

/-- Length matched by the identifier rule. -/
def identMatch : List Char → Nat
  | [] => 0
  | c :: rest =>
      if isIdentStart c then 1 + (rest.takeWhile isIdentCont).length else 0

def opChars : List Char :=
  ['=', '+', '-', '*', '/', '%', '(', ')', '[', ']', ',', ';']

/-- Length matched by the single-character operator rules. -/
def opMatch : List Char → Nat
  | [] => 0
  | c :: _ => if c ∈ opChars then 1 else 0

/-- Pick the best (rule, length) pair: maximal munch, with the earlier rule
winning ties, as the generated lexer does. -/
def better (a b : Nat × Nat) : Nat × Nat := if b.2 > a.2 then b else a

/-- Rule table in priority order; rule numbers match the order in the
source's `lexer!` block. -/
def pickRule (cs : List Char) : Nat × Nat :=
  [(1, wsMatch cs), (2, commentMatch cs), (3, returnMatch cs),
   (4, stringMatch cs), (5, numberMatch cs), (6, identMatch cs),
   (7, opMatch cs)].foldl better (0, 0)

def digitsToNat (cs : List Char) : Nat :=
  cs.foldl (fun a c => 10 * a + (c.toNat - 48)) 0

/-- Value of a matched numeric literal.  Rust parses the text with
`str::parse::<f64>`, which never fails on this lexeme shape (overflow
rounds to infinity); the model is exact, so the panic branch guarded by
the parse in the source is dead here as it is there. -/
def numberOfChars (cs : List Char) : F64 :=
  let intPart := cs.takeWhile Char.isDigit
  let rest := cs.drop intPart.length
  let fracPart := (rest.drop 1).takeWhile Char.isDigit
  .fin ((Q.ofNat (digitsToNat intPart)).add
    ((Q.ofNat (digitsToNat fracPart)).div (Q.ofNat (10 ^ fracPart.length))))

def opToken : List Char → Token
  | '=' :: _ => .equals
  | '+' :: _ => .plus
  | '-' :: _ => .minus
  | '*' :: _ => .star
  | '/' :: _ => .slash
  | '%' :: _ => .percent
  | '(' :: _ => .lparen
  | ')' :: _ => .rparen
  | '[' :: _ => .lbracket
  | ']' :: _ => .rbracket
  | ',' :: _ => .comma
  | _ => .semi

/-- Build the token for a winning rule from the matched text. -/
def mkToken (rule : Nat) (txt : List Char) : Token :=
  match rule with
  | 1 => .whitespace
  | 2 => .comment
  | 3 => .retKw
  | 4 => .string (String.mk ((txt.drop 1).dropLast))
  | 5 => .number (numberOfChars txt)
  | 6 => .ident (String.mk txt)
  | _ => opToken txt

/-- One step of `next_token`: end of input, a matched token and the rest of
the input, or the catch-all rule's panic. -/
inductive LexStep where
  | eof
  | crash (msg : String)
  | tok (t : Token) (rest : List Char)
deriving DecidableEq

/-- Model of the generated `next_token`: maximal-munch over the rule table;
the catch-all rule panics on the unexpected character. -/
def next_token (cs : List Char) : LexStep :=
  match cs with
  | [] => .eof
  | c :: _ =>
      let p := pickRule cs
      if p.2 = 0 then .crash ("unexpected character: " ++ String.mk [c])
      else .tok (mkToken p.1 (cs.take p.2)) (cs.drop p.2)

/-- The token-collecting loop of `Lexer::next`: whitespace and comments are
skipped, a panic aborts the run.  `fuel` is a totalisation device; every
match consumes at least one character, so `length + 1` suffices. -/
def lexAll : Nat → List Char → Except String (List Token)
  | 0, _ => .error "lexer fuel exhausted"
  | fuel + 1, cs =>
      match next_token cs with
      | .eof => .ok []
      | .crash m => .error m
      | .tok t rest =>
          match t with
          | .whitespace => lexAll fuel rest
          | .comment => lexAll fuel rest
          | t' => (lexAll fuel rest).map (fun ts => t' :: ts)

deriving instance DecidableEq for Except

/-- Whole-input tokenisation (the `Lexer` iterator run to exhaustion).
`Except.error` is a lexer panic.  The reference lexer is lazy; eagerness is
observable only on inputs that both fail to parse and, later in the text,
fail to lex — no claim concerns such inputs. -/
def tokenize (s : String) : Except String (List Token) :=
  lexAll (s.toList.length + 1) s.toList

example : tokenize "1+2;" =
    .ok [.number (.fin ⟨1, 1⟩), .plus, .number (.fin ⟨2, 1⟩), .semi] := by decide

example : tokenize "1 + 2; # note\n" =
    .ok [.number (.fin ⟨1, 1⟩), .plus, .number (.fin ⟨2, 1⟩), .semi] := by decide

example : tokenize "x = print;" =
    .ok [.ident "x", .equals, .ident "print", .semi] := by decide

example : tokenize "!" = .error "unexpected character: !" := by decide

example : tokenize "return 1.5;" =
    .ok [.retKw, .number (.fin ⟨3, 2⟩), .semi] := by decide

/-- The AST (`ast::Expr_`); spans are not modelled.  `ret` is the
`Return` node, `function` the single-argument call node. -/
inductive Expr where
  | add (a b : Expr)
  | sub (a b : Expr)
  | mul (a b : Expr)
  | div (a b : Expr)
  | mod (a b : Expr)
  | var (name : String)
  | assign (name : String) (rhs : Expr)
  | function (name : String) (arg : Expr)
  | ret (e : Expr)
  | number (n : F64)
  | string (s : String)
  | list (es : List Expr)

/-- Model of `ast::Program`. -/
structure Program where
  stmts : List Expr

/-- The error payload of the generated parser: the offending token (none at
end of input) and a static diagnostic message.  The exact message text is
produced by the parser generator; the model uses fixed descriptive
strings. -/
abbrev ParseErr := Option Token × String

def unexpectedTok (ts : List Token) : ParseErr :=
  match ts with
  | t :: _ => (some t, "unexpected token")
  | [] => (none, "unexpected end of input")

/-!
The LALR parser generated by `parser!` is modelled by a functional parser
implementing the grammar productions verbatim, with the left-recursive
productions (`statements`, `list`, `term`, `fact`) unrolled into
left-folding loops, exactly mirroring the reductions the LALR automaton
performs.  `fuel` only totalises the mutual recursion; `parse` supplies
enough for any input.
-/

mutual

/-- Production `assign : Ident LParen assign RParen | Ident Equals assign | object`. -/
def parseAssign : Nat → List Token → Except ParseErr (Expr × List Token)
  | 0, _ => .error (none, "fuel exhausted")
  | fuel + 1, ts =>
      match ts with
      | .ident f :: .lparen :: rest =>
          match parseAssign fuel rest with
          | .error e => .error e
          | .ok (a, rest₁) =>
              match rest₁ with
              | .rparen :: rest₂ => .ok (.function f a, rest₂)
              | other => .error (unexpectedTok other)
      | .ident v :: .equals :: rest =>
          match parseAssign fuel rest with
          | .error e => .error e
          | .ok (rhs, rest₁) => .ok (.assign v rhs, rest₁)
      | _ => parseObject fuel ts

/-- Production `object : LBracket list RBracket | LBracket RBracket | term`. -/
def parseObject : Nat → List Token → Except ParseErr (Expr × List Token)
  | 0, _ => .error (none, "fuel exhausted")
  | fuel + 1, ts =>
      match ts with
      | .lbracket :: .rbracket :: rest => .ok (.list [], rest)
      | .lbracket :: rest =>
          match parseListElems fuel rest with
          | .error e => .error e
          | .ok (es, rest₁) =>
              match rest₁ with
              | .rbracket :: rest₂ => .ok (.list es, rest₂)
              | other => .error (unexpectedTok other)
      | _ => parseTerm fuel ts

/-- Production `list : object | list Comma object`, accumulating left-to-right. -/
def parseListElems : Nat → List Token → Except ParseErr (List Expr × List Token)
  | 0, _ => .error (none, "fuel exhausted")
  | fuel + 1, ts =>
      match parseObject fuel ts with
      | .error e => .error e
      | .ok (o, rest) => parseListRest fuel [o] rest

def parseListRest : Nat → List Expr → List Token → Except ParseErr (List Expr × List Token)
  | 0, _, _ => .error (none, "fuel exhausted")
  | fuel + 1, acc, ts =>
      match ts with
      | .comma :: rest =>
          match parseObject fuel rest with
          | .error e => .error e
          | .ok (o, rest₁) => parseListRest fuel (acc ++ [o]) rest₁
      | _ => .ok (acc, ts)

/-- Production `term : term Plus fact | term Minus fact | fact` (left-recursive, so a
left fold over `fact`s). -/
def parseTerm : Nat → List Token → Except ParseErr (Expr × List Token)
  | 0, _ => .error (none, "fuel exhausted")
  | fuel + 1, ts =>
      match parseFact fuel ts with
      | .error e => .error e
      | .ok (x, rest) => parseTermRest fuel x rest

def parseTermRest : Nat → Expr → List Token → Except ParseErr (Expr × List Token)
  | 0, _, _ => .error (none, "fuel exhausted")
  | fuel + 1, lhs, ts =>
      match ts with
      | .plus :: rest =>
          match parseFact fuel rest with
          | .error e => .error e
          | .ok (rhs, rest₁) => parseTermRest fuel (.add lhs rhs) rest₁
      | .minus :: rest =>
          match parseFact fuel rest with
          | .error e => .error e
          | .ok (rhs, rest₁) => parseTermRest fuel (.sub lhs rhs) rest₁
      | _ => .ok (lhs, ts)

/-- Production `fact : fact Star atom | fact Slash atom | fact Percent atom | atom`. -/
def parseFact : Nat → List Token → Except ParseErr (Expr × List Token)
  | 0, _ => .error (none, "fuel exhausted")
  | fuel + 1, ts =>
      match parseAtom fuel ts with
      | .error e => .error e
      | .ok (x, rest) => parseFactRest fuel x rest

def parseFactRest : Nat → Expr → List Token → Except ParseErr (Expr × List Token)
  | 0, _, _ => .error (none, "fuel exhausted")
  | fuel + 1, lhs, ts =>
      match ts with
      | .star :: rest =>
          match parseAtom fuel rest with
          | .error e => .error e
          | .ok (rhs, rest₁) => parseFactRest fuel (.mul lhs rhs) rest₁
      | .slash :: rest =>
          match parseAtom fuel rest with
          | .error e => .error e
          | .ok (rhs, rest₁) => parseFactRest fuel (.div lhs rhs) rest₁
      | .percent :: rest =>
          match parseAtom fuel rest with
          | .error e => .error e
          | .ok (rhs, rest₁) => parseFactRest fuel (.mod lhs rhs) rest₁
      | _ => .ok (lhs, ts)

/-- Production `atom : Ident | Number | String | LParen assign RParen`. -/
def parseAtom : Nat → List Token → Except ParseErr (Expr × List Token)
  | 0, _ => .error (none, "fuel exhausted")
  | fuel + 1, ts =>
      match ts with
      | .ident v :: rest => .ok (.var v, rest)
      | .number n :: rest => .ok (.number n, rest)
      | .string s :: rest => .ok (.string s, rest)
      | .lparen :: rest =>
          match parseAssign fuel rest with
          | .error e => .error e
          | .ok (a, rest₁) =>
              match rest₁ with
              | .rparen :: rest₂ => .ok (a, rest₂)
              | other => .error (unexpectedTok other)
      | other => .error (unexpectedTok other)

end

/-- Production `ret : Return assign | assign`. -/
def parseRet (fuel : Nat) (ts : List Token) : Except ParseErr (Expr × List Token) :=
  match ts with
  | .retKw :: rest =>
      match parseAssign fuel rest with
      | .error e => .error e
      | .ok (a, rest₁) => .ok (.ret a, rest₁)
  | _ => parseAssign fuel ts

/-- Production `statements : | statements ret Semi`, a possibly empty sequence of
semicolon-terminated statements consuming the whole input. -/
def parseStatements : Nat → List Token → Except ParseErr (List Expr)
  | 0, _ => .error (none, "fuel exhausted")
  | fuel + 1, ts =>
      match ts with
      | [] => .ok []
      | _ =>
          match parseRet fuel ts with
          | .error e => .error e
          | .ok (e, rest) =>
              match rest with
              | .semi :: rest₁ =>
                  match parseStatements fuel rest₁ with
                  | .error err => .error err
                  | .ok es => .ok (e :: es)
              | other => .error (unexpectedTok other)

/-- Model of `parser::parse`: run the grammar start symbol over the whole token
sequence. -/
def parse (ts : List Token) : Except ParseErr Program :=
  match parseStatements (10 * ts.length + 10) ts with
  | .error e => .error e
  | .ok es => .ok ⟨es⟩

example : parse [.number (.fin ⟨1, 1⟩), .plus, .number (.fin ⟨2, 1⟩), .semi] =
    .ok ⟨[.add (.number (.fin ⟨1, 1⟩)) (.number (.fin ⟨2, 1⟩))]⟩ := rfl

example : parse [.semi] = .error (some .semi, "unexpected token") := rfl

example : parse [.ident "f", .lparen, .number (.fin ⟨1, 1⟩), .rparen, .semi] =
    .ok ⟨[.function "f" (.number (.fin ⟨1, 1⟩))]⟩ := rfl

example : parse [.lbracket, .rbracket, .semi] = .ok ⟨[.list []]⟩ := rfl

/-- Model of `QueryError`: the engine's error taxonomy.  `LexingError` is declared
but never constructed by the code (the lexer panics instead). -/
inductive QueryError where
  | LexingError
  | ParsingError
  | VariableNotDefined (name : String)
  | MathError (msg : String)
  | InvalidType (msg : String)
deriving DecidableEq

/-- The host-provided native functions; the code registers exactly one,
`q_print`.  An enum of handles rather than a function value so that
equality of runtime values stays decidable. -/
inductive NativeFn where
  | qPrint
deriving DecidableEq

/-- Model of `DataType`: the runtime value union. -/
inductive DataType where
  | none
  | number (n : F64)
  | string (s : String)
  | list (l : List DataType)
  | function (f : NativeFn)

mutual

/-- Decidable equality for the nested value type, written by hand so that
the kernel can evaluate it. -/
def dataTypeDecEq : (a b : DataType) → Decidable (a = b)
  | .none, .none => isTrue rfl
  | .none, .number _ => isFalse nofun
  | .none, .string _ => isFalse nofun
  | .none, .list _ => isFalse nofun
  | .none, .function _ => isFalse nofun
  | .number _, .none => isFalse nofun
  | .number a, .number b => if h : a = b then isTrue (by rw [h]) else isFalse (by simp [h])
  | .number _, .string _ => isFalse nofun
  | .number _, .list _ => isFalse nofun
  | .number _, .function _ => isFalse nofun
  | .string _, .none => isFalse nofun
  | .string _, .number _ => isFalse nofun
  | .string a, .string b => if h : a = b then isTrue (by rw [h]) else isFalse (by simp [h])
  | .string _, .list _ => isFalse nofun
  | .string _, .function _ => isFalse nofun
  | .list _, .none => isFalse nofun
  | .list _, .number _ => isFalse nofun
  | .list _, .string _ => isFalse nofun
  | .list a, .list b =>
      match dataTypeDecEqList a b with
      | isTrue h => isTrue (by rw [h])
      | isFalse h => isFalse (by simp [h])
  | .list _, .function _ => isFalse nofun
  | .function _, .none => isFalse nofun
  | .function _, .number _ => isFalse nofun
  | .function _, .string _ => isFalse nofun
  | .function _, .list _ => isFalse nofun
  | .function .qPrint, .function .qPrint => isTrue rfl

def dataTypeDecEqList : (a b : List DataType) → Decidable (a = b)
  | [], [] => isTrue rfl
  | [], _ :: _ => isFalse nofun
  | _ :: _, [] => isFalse nofun
  | a :: as, b :: bs =>
      match dataTypeDecEq a b with
      | isFalse h => isFalse (by simp [h])
      | isTrue h1 =>
          match dataTypeDecEqList as bs with
          | isTrue h2 => isTrue (by rw [h1, h2])
          | isFalse h2 => isFalse (by simp [h2])

end

instance : DecidableEq DataType := dataTypeDecEq

/-- Model of `functions::q_print`: prints each argument (side effect not modelled)
and returns `None`. -/
def q_print (_args : List DataType) : Except QueryError DataType :=
  .ok DataType.none

/-- Dispatch a native-function handle to its implementation. -/
def applyNative : NativeFn → List DataType → Except QueryError DataType
  | .qPrint, args => q_print args

/-- The environment: `HashMap<&str, DataType>` modelled as an association
list with replace-on-insert semantics. -/
abbrev Env := List (String × DataType)

def envInsert (k : String) (v : DataType) : Env → Env
  | [] => [(k, v)]
  | (k', v') :: rest =>
      if k = k' then (k, v) :: rest else (k', v') :: envInsert k v rest

def envGet (k : String) : Env → Option DataType
  | [] => Option.none
  | (k', v) :: rest => if k = k' then some v else envGet k rest

/-- Model of `functions::fill_env`: seed the native-function registry. -/
def fill_env (env : Env) : Env := envInsert "print" (.function .qPrint) env

/-- Model of `interpret::get_env`: the fresh environment for one evaluation. -/
def get_env : Env := fill_env []

/-!
`interpret_expr` mutates the environment in place in Rust; the model
threads it explicitly, returning the updated environment next to the value.
On an error the environment is discarded, as the reference evaluation never
reads it again after an error.
-/

mutual

/-- Model of `interpret::interpret_expr`. -/
def interpret_expr : Env → Expr → Except QueryError (DataType × Env)
  | env, .add a b =>
      match interpret_expr env a with
      | .error q => .error q
      | .ok (a_res, env₁) =>
          match interpret_expr env₁ b with
          | .error q => .error q
          | .ok (b_res, env₂) =>
              match a_res with
              | .number a_num =>
                  match b_res with
                  | .number b_num => .ok (.number (a_num.add b_num), env₂)
                  | _ => .error (.InvalidType "Cannot add something that is not a number!")
              | _ => .error (.InvalidType "Cannot add something that is not a number!")
  | env, .sub a b =>
      match interpret_expr env a with
      | .error q => .error q
      | .ok (a_res, env₁) =>
          match interpret_expr env₁ b with
          | .error q => .error q
          | .ok (b_res, env₂) =>
              match a_res with
              | .number a_num =>
                  match b_res with
                  | .number b_num => .ok (.number (a_num.sub b_num), env₂)
                  | _ => .error (.InvalidType "Cannot sub something that is not a number!")
              | _ => .error (.InvalidType "Cannot sub something that is not a number!")
  | env, .mul a b =>
      match interpret_expr env a with
      | .error q => .error q
      | .ok (a_res, env₁) =>
          match interpret_expr env₁ b with
          | .error q => .error q
          | .ok (b_res, env₂) =>
              match a_res with
              | .number a_num =>
                  match b_res with
                  | .number b_num => .ok (.number (a_num.mul b_num), env₂)
                  | _ => .error (.InvalidType "Cannot sub something that is not a number!")
              | _ => .error (.InvalidType "Cannot sub something that is not a number!")
  | env, .div a b =>
      match interpret_expr env a with
      | .error q => .error q
      | .ok (a_res, env₁) =>
          match interpret_expr env₁ b with
          | .error q => .error q
          | .ok (b_res, env₂) =>
              match a_res with
              | .number a_num =>
                  match b_res with
                  | .number b_num =>
                      if b_num.isZero then
                        .error (.MathError "Tried to divide by zero!")
                      else .ok (.number (a_num.div b_num), env₂)
                  | _ => .error (.InvalidType "Cannot sub something that is not a number!")
              | _ => .error (.InvalidType "Cannot sub something that is not a number!")
  | env, .mod a b =>
      match interpret_expr env a with
      | .error q => .error q
      | .ok (a_res, env₁) =>
          match interpret_expr env₁ b with
          | .error q => .error q
          | .ok (b_res, env₂) =>
              match a_res with
              | .number a_num =>
                  match b_res with
                  | .number b_num => .ok (.number (a_num.mod b_num), env₂)
                  | _ => .error (.InvalidType "Cannot sub something that is not a number!")
              | _ => .error (.InvalidType "Cannot sub something that is not a number!")
  | env, .assign var b =>
      match interpret_expr env b with
      | .error q => .error q
      | .ok (val, env₁) => .ok (val, envInsert var val env₁)
  | env, .var v =>
      match envGet v env with
      | some x => .ok (x, env)
      | Option.none => .error (.VariableNotDefined v)
  | env, .number lit => .ok (.number lit, env)
  | env, .string litstr => .ok (.string litstr, env)
  | env, .ret e =>
      match interpret_expr env e with
      | .error q => .error q
      | .ok (val, env₁) => .ok (val, env₁)
  | env, .function fname e =>
      match interpret_expr env e with
      | .error q => .error q
      | .ok (val, env₁) =>
          match envGet fname env₁ with
          | Option.none => .error (.VariableNotDefined fname)
          | some (DataType.function f) =>
              match applyNative f [val] with
              | .error q => .error q
              | .ok v => .ok (v, env₁)
          | some _ => .error (.InvalidType fname)
  | env, .list es =>
      match interpretList env es with
      | .error q => .error q
      | .ok (l, env₁) => .ok (.list l, env₁)

/-- The element loop of the `List` case of `interpret_expr`. -/
def interpretList : Env → List Expr → Except QueryError (List DataType × Env)
  | env, [] => .ok ([], env)
  | env, e :: es =>
      match interpret_expr env e with
      | .error q => .error q
      | .ok (v, env₁) =>
          match interpretList env₁ es with
          | .error q => .error q
          | .ok (vs, env₂) => .ok (v :: vs, env₂)

end

/-- The statement loop of `interpret_prog`: evaluate in order, return the
last statement's value. -/
def interpretStmts : Env → Expr → List Expr → Except QueryError DataType
  | env, e, rest =>
      match interpret_expr env e with
      | .error q => .error q
      | .ok (v, env₁) =>
          match rest with
          | [] => .ok v
          | e₁ :: rest₁ => interpretStmts env₁ e₁ rest₁

/-- Overall evaluation outcome: a value, a `QueryError`, or a process
abort (`panic!`). -/
inductive Outcome (α : Type) where
  | ok (v : α)
  | err (e : QueryError)
  | crash (msg : String)
deriving DecidableEq

/-- Model of `interpret::interpret_prog`.  On an empty program the reference
computes `p.stmts.len() - 1`, which underflows `usize` (an abort in debug
builds), and in release builds the loop body never runs and the
explicit `panic!("This should be unreachable!")` is reached; either way
the process aborts, modelled as `crash`. -/
def interpret_prog (p : Program) : Outcome DataType :=
  match p.stmts with
  | [] => .crash "This should be unreachable!"
  | e :: rest =>
      match interpretStmts get_env e rest with
      | .error q => .err q
      | .ok v => .ok v

/-- The entry point `query`: tokenizer, parser, evaluator in order.  A
lexer panic aborts; a parse failure is printed and collapsed to the
payload-free `ParsingError`. -/
def query (code : String) : Outcome DataType :=
  match tokenize code with
  | .error m => .crash m
  | .ok toks =>
      match parse toks with
      | .error _ => .err .ParsingError
      | .ok p => interpret_prog p

/-- Glue for end-to-end facts: staging the pipeline through explicit
intermediate results keeps kernel reduction linear. -/
theorem query_pipeline_eq (code : String) (ts : List Token) (p : Program)
    (r : Outcome DataType) (h1 : tokenize code = .ok ts) (h2 : parse ts = .ok p)
    (h3 : interpret_prog p = r) : query code = r := by
  simp [query, h1, h2, h3]

/-- Glue for a crash during lexing. -/
theorem query_lex_crash (code : String) (m : String)
    (h1 : tokenize code = .error m) : query code = .crash m := by
  simp [query, h1]

/-- Glue for a parse failure. -/
theorem query_parse_err (code : String) (ts : List Token) (e : ParseErr)
    (h1 : tokenize code = .ok ts) (h2 : parse ts = .error e) :
    query code = .err .ParsingError := by
  simp [query, h1, h2]

example : query "x = 5; y = x + 3; y * 2;" = .ok (.number (.fin ⟨16, 1⟩)) :=
  query_pipeline_eq _
    [.ident "x", .equals, .number (.fin ⟨5, 1⟩), .semi,
     .ident "y", .equals, .ident "x", .plus, .number (.fin ⟨3, 1⟩), .semi,
     .ident "y", .star, .number (.fin ⟨2, 1⟩), .semi]
    ⟨[.assign "x" (.number (.fin ⟨5, 1⟩)),
      .assign "y" (.add (.var "x") (.number (.fin ⟨3, 1⟩))),
      .mul (.var "y") (.number (.fin ⟨2, 1⟩))]⟩
    _ (by decide) rfl (by decide)

example : query "1 / 0;" = .err (.MathError "Tried to divide by zero!") := by decide

example : query "" = .crash "This should be unreachable!" := by decide

example : query "print([1,2]);" = .ok .none :=
  query_pipeline_eq _
    [.ident "print", .lparen, .lbracket, .number (.fin ⟨1, 1⟩), .comma,
     .number (.fin ⟨2, 1⟩), .rbracket, .rparen, .semi]
    ⟨[.function "print" (.list [.number (.fin ⟨1, 1⟩), .number (.fin ⟨2, 1⟩)])]⟩
    _ (by decide) rfl (by decide)

/-! Auxiliary predicates and denotations used by the claim theorems. -/

/-- Arithmetic expressions built from numeric literals only. -/
inductive ArithLit : Expr → Prop
  | number (n : F64) : ArithLit (.number n)
  | add (a b : Expr) : ArithLit a → ArithLit b → ArithLit (.add a b)
  | sub (a b : Expr) : ArithLit a → ArithLit b → ArithLit (.sub a b)
  | mul (a b : Expr) : ArithLit a → ArithLit b → ArithLit (.mul a b)
  | div (a b : Expr) : ArithLit a → ArithLit b → ArithLit (.div a b)
  | mod (a b : Expr) : ArithLit a → ArithLit b → ArithLit (.mod a b)

/-- Direct recursive arithmetic evaluation with the engine's semantics:
IEEE operations, left operand first, and a math error on a zero right
operand of division. -/
def arithDenote : Expr → Except QueryError F64
  | .number n => .ok n
  | .add a b =>
      match arithDenote a with
      | .error q => .error q
      | .ok x =>
          match arithDenote b with
          | .error q => .error q
          | .ok y => .ok (x.add y)
  | .sub a b =>
      match arithDenote a with
      | .error q => .error q
      | .ok x =>
          match arithDenote b with
          | .error q => .error q
          | .ok y => .ok (x.sub y)
  | .mul a b =>
      match arithDenote a with
      | .error q => .error q
      | .ok x =>
          match arithDenote b with
          | .error q => .error q
          | .ok y => .ok (x.mul y)
  | .div a b =>
      match arithDenote a with
      | .error q => .error q
      | .ok x =>
          match arithDenote b with
          | .error q => .error q
          | .ok y =>
              if y.isZero then .error (.MathError "Tried to divide by zero!")
              else .ok (x.div y)
  | .mod a b =>
      match arithDenote a with
      | .error q => .error q
      | .ok x =>
          match arithDenote b with
          | .error q => .error q
          | .ok y => .ok (x.mod y)
  | _ => .error (.InvalidType "not an arithmetic literal expression")

/-- Modelled from the spec: "the IEEE-754 double-precision evaluation of
the expression" — plain IEEE evaluation of an arithmetic expression with
no zero-divisor exception (IEEE gives `1/0 = +inf`, `1 % 0 = NaN`).  Used
to compare the claimed behaviour against the evaluator's. -/
def ieeeDenote : Expr → Option F64
  | .number n => some n
  | .add a b =>
      match ieeeDenote a, ieeeDenote b with
      | some x, some y => some (x.add y)
      | _, _ => Option.none
  | .sub a b =>
      match ieeeDenote a, ieeeDenote b with
      | some x, some y => some (x.sub y)
      | _, _ => Option.none
  | .mul a b =>
      match ieeeDenote a, ieeeDenote b with
      | some x, some y => some (x.mul y)
      | _, _ => Option.none
  | .div a b =>
      match ieeeDenote a, ieeeDenote b with
      | some x, some y => some (x.div y)
      | _, _ => Option.none
  | .mod a b =>
      match ieeeDenote a, ieeeDenote b with
      | some x, some y => some (x.mod y)
      | _, _ => Option.none
  | _ => Option.none

/-- Expressions containing no assignment to the identifier `x`. -/
inductive AvoidsAssign (x : String) : Expr → Prop
  | add (a b : Expr) : AvoidsAssign x a → AvoidsAssign x b → AvoidsAssign x (.add a b)
  | sub (a b : Expr) : AvoidsAssign x a → AvoidsAssign x b → AvoidsAssign x (.sub a b)
  | mul (a b : Expr) : AvoidsAssign x a → AvoidsAssign x b → AvoidsAssign x (.mul a b)
  | div (a b : Expr) : AvoidsAssign x a → AvoidsAssign x b → AvoidsAssign x (.div a b)
  | mod (a b : Expr) : AvoidsAssign x a → AvoidsAssign x b → AvoidsAssign x (.mod a b)
  | var (name : String) : AvoidsAssign x (.var name)
  | assign (name : String) (rhs : Expr) :
      ¬(name = x) → AvoidsAssign x rhs → AvoidsAssign x (.assign name rhs)
  | function (name : String) (arg : Expr) :
      AvoidsAssign x arg → AvoidsAssign x (.function name arg)
  | ret (e : Expr) : AvoidsAssign x e → AvoidsAssign x (.ret e)
  | number (n : F64) : AvoidsAssign x (.number n)
  | string (s : String) : AvoidsAssign x (.string s)
  | list (es : List Expr) : (∀ e ∈ es, AvoidsAssign x e) → AvoidsAssign x (.list es)

/-- Expressions containing no assignment node at all. -/
inductive NoAssign : Expr → Prop
  | add (a b : Expr) : NoAssign a → NoAssign b → NoAssign (.add a b)
  | sub (a b : Expr) : NoAssign a → NoAssign b → NoAssign (.sub a b)
  | mul (a b : Expr) : NoAssign a → NoAssign b → NoAssign (.mul a b)
  | div (a b : Expr) : NoAssign a → NoAssign b → NoAssign (.div a b)
  | mod (a b : Expr) : NoAssign a → NoAssign b → NoAssign (.mod a b)
  | var (name : String) : NoAssign (.var name)
  | function (name : String) (arg : Expr) : NoAssign arg → NoAssign (.function name arg)
  | ret (e : Expr) : NoAssign e → NoAssign (.ret e)
  | number (n : F64) : NoAssign (.number n)
  | string (s : String) : NoAssign (.string s)
  | list (es : List Expr) : (∀ e ∈ es, NoAssign e) → NoAssign (.list es)

theorem noAssign_avoids (x : String) : ∀ {e : Expr}, NoAssign e → AvoidsAssign x e := by
  intro e h
  induction h with
  | add a b _ _ iha ihb => exact .add a b iha ihb
  | sub a b _ _ iha ihb => exact .sub a b iha ihb
  | mul a b _ _ iha ihb => exact .mul a b iha ihb
  | div a b _ _ iha ihb => exact .div a b iha ihb
  | mod a b _ _ iha ihb => exact .mod a b iha ihb
  | var name => exact .var name
  | function name arg _ ih => exact .function name arg ih
  | ret e _ ih => exact .ret e ih
  | number n => exact .number n
  | string s => exact .string s
  | list es _ ih => exact .list es ih

theorem envGet_insert_self (x : String) (v : DataType) :
    ∀ env : Env, envGet x (envInsert x v env) = some v := by
  intro env
  induction env with
  | nil => simp [envInsert, envGet]
  | cons kv rest ih =>
      by_cases h : x = kv.1 <;> simp [envInsert, envGet, h, ih]

theorem envGet_insert_ne (x y : String) (v : DataType) (hyx : ¬(y = x)) :
    ∀ env : Env, envGet y (envInsert x v env) = envGet y env := by
  intro env
  induction env with
  | nil => simp [envInsert, envGet, hyx]
  | cons kv rest ih =>
      by_cases h : x = kv.1
      · subst h
        simp [envInsert, envGet, hyx]
      · simp [envInsert, envGet, h, ih]

/-- If every element of `es` preserves the binding of `x`, so does the
element loop. -/
theorem interpretList_envGet (x : String) :
    ∀ es : List Expr,
      (∀ e ∈ es, ∀ (env : Env) (v : DataType) (env₁ : Env),
        interpret_expr env e = .ok (v, env₁) → envGet x env₁ = envGet x env) →
      ∀ (env : Env) (vs : List DataType) (env₁ : Env),
        interpretList env es = .ok (vs, env₁) → envGet x env₁ = envGet x env := by
  intro es
  induction es with
  | nil =>
      intro _ env vs env₁ hq
      simp only [interpretList] at hq
      injection hq with hpair
      injection hpair with _ henv
      rw [← henv]
  | cons e es ih =>
      intro hmem env vs env₁ hq
      simp only [interpretList] at hq
      rcases h1 : interpret_expr env e with q | ⟨v, envm⟩ <;> simp only [h1] at hq
      · exact absurd hq (by simp)
      · rcases h2 : interpretList envm es with q | ⟨ws, env₂⟩ <;> simp only [h2] at hq
        · exact absurd hq (by simp)
        · injection hq with hpair
          injection hpair with _ henv
          have hstep := hmem e (by simp) env v envm h1
          have hrest := ih (fun e' he' => hmem e' (by simp [he'])) envm ws env₂ h2
          rw [← henv, hrest, hstep]

/-- Core frame lemma: evaluating an expression that contains no assignment
to `x` leaves the binding of `x` unchanged. -/
theorem avoidsAssign_envGet {x : String} {e : Expr} (h : AvoidsAssign x e) :
    ∀ (env : Env) (v : DataType) (env₁ : Env),
      interpret_expr env e = .ok (v, env₁) → envGet x env₁ = envGet x env := by
  induction h with
  | add a b _ _ iha ihb =>
      intro env v env₁ hq
      simp only [interpret_expr] at hq
      rcases h1 : interpret_expr env a with q | ⟨ar, em⟩ <;> simp only [h1] at hq
      · exact absurd hq (by simp)
      · rcases h2 : interpret_expr em b with q | ⟨br, e2⟩ <;> simp only [h2] at hq
        · exact absurd hq (by simp)
        · have hstep1 := iha env ar em h1
          have hstep2 := ihb em br e2 h2
          repeat split at hq
          all_goals simp_all
  | sub a b _ _ iha ihb =>
      intro env v env₁ hq
      simp only [interpret_expr] at hq
      rcases h1 : interpret_expr env a with q | ⟨ar, em⟩ <;> simp only [h1] at hq
      · exact absurd hq (by simp)
      · rcases h2 : interpret_expr em b with q | ⟨br, e2⟩ <;> simp only [h2] at hq
        · exact absurd hq (by simp)
        · have hstep1 := iha env ar em h1
          have hstep2 := ihb em br e2 h2
          repeat split at hq
          all_goals simp_all
  | mul a b _ _ iha ihb =>
      intro env v env₁ hq
      simp only [interpret_expr] at hq
      rcases h1 : interpret_expr env a with q | ⟨ar, em⟩ <;> simp only [h1] at hq
      · exact absurd hq (by simp)
      · rcases h2 : interpret_expr em b with q | ⟨br, e2⟩ <;> simp only [h2] at hq
        · exact absurd hq (by simp)
        · have hstep1 := iha env ar em h1
          have hstep2 := ihb em br e2 h2
          repeat split at hq
          all_goals simp_all
  | div a b _ _ iha ihb =>
      intro env v env₁ hq
      simp only [interpret_expr] at hq
      rcases h1 : interpret_expr env a with q | ⟨ar, em⟩ <;> simp only [h1] at hq
      · exact absurd hq (by simp)
      · rcases h2 : interpret_expr em b with q | ⟨br, e2⟩ <;> simp only [h2] at hq
        · exact absurd hq (by simp)
        · have hstep1 := iha env ar em h1
          have hstep2 := ihb em br e2 h2
          repeat split at hq
          all_goals simp_all
  | mod a b _ _ iha ihb =>
      intro env v env₁ hq
      simp only [interpret_expr] at hq
      rcases h1 : interpret_expr env a with q | ⟨ar, em⟩ <;> simp only [h1] at hq
      · exact absurd hq (by simp)
      · rcases h2 : interpret_expr em b with q | ⟨br, e2⟩ <;> simp only [h2] at hq
        · exact absurd hq (by simp)
        · have hstep1 := iha env ar em h1
          have hstep2 := ihb em br e2 h2
          repeat split at hq
          all_goals simp_all
  | var name =>
      intro env v env₁ hq
      simp only [interpret_expr] at hq
      rcases hg : envGet name env with _ | w <;> simp only [hg] at hq
      · exact absurd hq (by simp)
      · injection hq with hpair
        injection hpair with _ henv
        rw [← henv]
  | assign name rhs hne _ ih =>
      intro env v env₁ hq
      simp only [interpret_expr] at hq
      rcases h1 : interpret_expr env rhs with q | ⟨val, em⟩ <;> simp only [h1] at hq
      · exact absurd hq (by simp)
      · injection hq with hpair
        injection hpair with _ henv
        rw [← henv, envGet_insert_ne name x val (fun hh => hne hh.symm) em]
        exact ih env val em h1
  | function name arg _ ih =>
      intro env v env₁ hq
      simp only [interpret_expr] at hq
      rcases h1 : interpret_expr env arg with q | ⟨val, em⟩ <;> simp only [h1] at hq
      · exact absurd hq (by simp)
      · have hstep := ih env val em h1
        rcases hg : envGet name em with _ | w <;> simp only [hg] at hq
        · exact absurd hq (by simp)
        · repeat split at hq
          all_goals simp_all [applyNative, q_print]
  | ret e _ ih =>
      intro env v env₁ hq
      simp only [interpret_expr] at hq
      rcases h1 : interpret_expr env e with q | ⟨val, em⟩ <;> simp only [h1] at hq
      · exact absurd hq (by simp)
      · injection hq with hpair
        injection hpair with _ henv
        rw [← henv]
        exact ih env val em h1
  | number n =>
      intro env v env₁ hq
      simp only [interpret_expr] at hq
      injection hq with hpair
      injection hpair with _ henv
      rw [← henv]
  | string s =>
      intro env v env₁ hq
      simp only [interpret_expr] at hq
      injection hq with hpair
      injection hpair with _ henv
      rw [← henv]
  | list es _ ih =>
      intro env v env₁ hq
      simp only [interpret_expr] at hq
      rcases h1 : interpretList env es with q | ⟨vs, em⟩ <;> simp only [h1] at hq
      · exact absurd hq (by simp)
      · injection hq with hpair
        injection hpair with _ henv
        rw [← henv]
        exact interpretList_envGet x es ih env vs em h1

/-! Claim theorems. -/

/-- C1 (amended): when both operands of an arithmetic node evaluate to
numbers, `Add`, `Sub`, `Mul` and `Mod` always succeed — in particular
`a % 0` yields the IEEE remainder NaN rather than a math error — and `Div`
fails with the math error exactly when the right operand equals `0.0`;
so among numeric inputs only a zero right operand of `Div` produces a
math-error result. -/
theorem c1_math_error_only_for_div_by_zero :
    ∀ (env env₁ env₂ : Env) (ea eb : Expr) (a b : F64),
      interpret_expr env ea = .ok (.number a, env₁) →
      interpret_expr env₁ eb = .ok (.number b, env₂) →
      interpret_expr env (.add ea eb) = .ok (.number (a.add b), env₂)
      ∧ interpret_expr env (.sub ea eb) = .ok (.number (a.sub b), env₂)
      ∧ interpret_expr env (.mul ea eb) = .ok (.number (a.mul b), env₂)
      ∧ interpret_expr env (.mod ea eb) = .ok (.number (a.mod b), env₂)
      ∧ interpret_expr env (.div ea eb) =
          (if b.isZero then .error (.MathError "Tried to divide by zero!")
           else .ok (.number (a.div b), env₂)) := by
  intro env env₁ env₂ ea eb a b h1 h2
  refine ⟨?_, ?_, ?_, ?_, ?_⟩ <;> simp [interpret_expr, h1, h2]

/-- C1 witness: dividing the literal 1 by the literal 0. -/
theorem c1_math_error_only_for_div_by_zero_witness :
    interpret_expr [] (.div (.number (.fin ⟨1, 1⟩)) (.number (.fin ⟨0, 1⟩))) =
      (if (F64.fin ⟨0, 1⟩).isZero then .error (.MathError "Tried to divide by zero!")
       else .ok (.number ((F64.fin ⟨1, 1⟩).div (.fin ⟨0, 1⟩)), [])) :=
  (c1_math_error_only_for_div_by_zero [] [] [] (.number (.fin ⟨1, 1⟩))
    (.number (.fin ⟨0, 1⟩)) (.fin ⟨1, 1⟩) (.fin ⟨0, 1⟩) rfl rfl).2.2.2.2

/-- C1 counterexample: `1 % 0;` does not fail with a math error — the
`Mod` branch has no zero-divisor check, so the program evaluates to the
IEEE remainder NaN. -/
theorem c1_mod_zero_yields_nan :
    query "1 % 0;" = .ok (.number .nan) := by decide

/-- C2: the claim demands a well-defined error on the empty program; the
code instead reaches the statement driver's panic (in release builds the
`"This should be unreachable!"` panic, in debug builds an index-underflow
abort just before it), so evaluating the empty source aborts the
process. -/
theorem c2_empty_source_crashes :
    query "" = .crash "This should be unreachable!"
    ∧ interpret_prog ⟨[]⟩ = .crash "This should be unreachable!" :=
  ⟨by decide, by decide⟩

/-- C3: the claim demands a recoverable lexing error; the tokenizer's
catch-all rule instead panics on a byte matching no lexical rule, aborting
the process (and `QueryError::LexingError` is never produced). -/
theorem c3_unexpected_char_crashes :
    tokenize "!" = .error "unexpected character: !"
    ∧ query "!" = .crash "unexpected character: !" :=
  ⟨by decide, by decide⟩

/-- C4: the claim says the invalid-type message names the offending
operator; `Add` and `Sub` do, but the `Mul`, `Div` and `Mod` branches all
reuse the copy-pasted `"Cannot sub ..."` text, so a type error under
multiplication is reported as a subtraction error. -/
theorem c4_mul_invalid_type_message_says_sub :
    query "x = []; x * 1;" = .err (.InvalidType "Cannot sub something that is not a number!")
    ∧ interpret_expr [] (.mul (.string "s") (.number .nan)) =
        .error (.InvalidType "Cannot sub something that is not a number!")
    ∧ interpret_expr [] (.div (.string "s") (.number .nan)) =
        .error (.InvalidType "Cannot sub something that is not a number!")
    ∧ interpret_expr [] (.mod (.string "s") (.number .nan)) =
        .error (.InvalidType "Cannot sub something that is not a number!")
    ∧ interpret_expr [] (.add (.string "s") (.number .nan)) =
        .error (.InvalidType "Cannot add something that is not a number!") := by
  refine ⟨?_, by decide, by decide, by decide, by decide⟩
  exact query_pipeline_eq _
    [.ident "x", .equals, .lbracket, .rbracket, .semi,
     .ident "x", .star, .number (.fin ⟨1, 1⟩), .semi]
    ⟨[.assign "x" (.list []), .mul (.var "x") (.number (.fin ⟨1, 1⟩))]⟩
    _ (by decide) rfl (by decide)

/-- C5 counterexample: two grammar violations with different offending
tokens reach the entry point's caller as the same payload-free
`ParsingError`: the token and message held by the internal parser error are
discarded by `query`, so the caller receives neither. -/
theorem c5_entry_point_error_carries_nothing :
    query ";" = .err .ParsingError
    ∧ query "=" = .err .ParsingError
    ∧ parse [Token.semi] = .error (some Token.semi, "unexpected token")
    ∧ parse [Token.equals] = .error (some Token.equals, "unexpected token")
    ∧ ¬(Token.semi = Token.equals) :=
  ⟨by decide, by decide, rfl, rfl, by decide⟩

/-- C5 (amended): on a grammar violation the internal parse function
returns an error value carrying the offending token (when one exists) and
a diagnostic message, but the entry point prints and discards it,
returning the payload-free `ParsingError`; the entry point's caller
receives no token and no message. -/
theorem c5_parse_failure_collapsed_by_entry_point :
    ∀ (code : String) (ts : List Token) (e : ParseErr),
      tokenize code = .ok ts → parse ts = .error e →
      query code = .err .ParsingError := by
  intro code ts e h1 h2
  simp [query, h1, h2]

/-- C5 witness: the one-token program `";"`. -/
theorem c5_parse_failure_collapsed_witness :
    query ";" = .err .ParsingError :=
  c5_parse_failure_collapsed_by_entry_point ";" [Token.semi]
    (some Token.semi, "unexpected token") (by decide) rfl

/-- C6 counterexample: for the well-formed literal-only expression
`1/0;` the IEEE-754 evaluation is `+inf`, but the evaluator returns a
math error, so the evaluator's result does not equal the IEEE evaluation
of the expression. -/
theorem c6_div_zero_differs_from_ieee :
    tokenize "1/0;" = .ok [.number (.fin ⟨1, 1⟩), .slash, .number (.fin ⟨0, 1⟩), .semi]
    ∧ parse [.number (.fin ⟨1, 1⟩), .slash, .number (.fin ⟨0, 1⟩), .semi] =
        .ok ⟨[.div (.number (.fin ⟨1, 1⟩)) (.number (.fin ⟨0, 1⟩))]⟩
    ∧ query "1/0;" = .err (.MathError "Tried to divide by zero!")
    ∧ ieeeDenote (.div (.number (.fin ⟨1, 1⟩)) (.number (.fin ⟨0, 1⟩))) = some (.inf false) :=
  ⟨by decide, rfl, by decide, rfl⟩

/-- C6 (amended): on literal-only arithmetic expressions the evaluator
computes exactly the direct recursive IEEE evaluation — left operand
first, `* / %` binding tighter than `+ -`, all left-associative — except
that a division whose right operand equals `0.0` yields a math error
instead of the IEEE infinity/NaN.  The parse conjuncts exhibit the
precedence and associativity on schematic token sequences. -/
theorem c6_literal_arithmetic_matches_ieee_eval :
    (∀ e : Expr, ArithLit e → ∀ env : Env,
      interpret_expr env e =
        match arithDenote e with
        | .ok x => .ok (.number x, env)
        | .error q => .error q)
    ∧ (∀ a b c : F64,
        parse [.number a, .plus, .number b, .star, .number c, .semi] =
          .ok ⟨[.add (.number a) (.mul (.number b) (.number c))]⟩
        ∧ parse [.number a, .star, .number b, .plus, .number c, .semi] =
          .ok ⟨[.add (.mul (.number a) (.number b)) (.number c)]⟩
        ∧ parse [.number a, .minus, .number b, .slash, .number c, .semi] =
          .ok ⟨[.sub (.number a) (.div (.number b) (.number c))]⟩
        ∧ parse [.number a, .percent, .number b, .minus, .number c, .semi] =
          .ok ⟨[.sub (.mod (.number a) (.number b)) (.number c)]⟩
        ∧ parse [.number a, .minus, .number b, .minus, .number c, .semi] =
          .ok ⟨[.sub (.sub (.number a) (.number b)) (.number c)]⟩
        ∧ parse [.number a, .slash, .number b, .percent, .number c, .semi] =
          .ok ⟨[.mod (.div (.number a) (.number b)) (.number c)]⟩
        ∧ parse [.number a, .plus, .number b, .minus, .number c, .semi] =
          .ok ⟨[.sub (.add (.number a) (.number b)) (.number c)]⟩
        ∧ parse [.number a, .star, .number b, .slash, .number c, .semi] =
          .ok ⟨[.div (.mul (.number a) (.number b)) (.number c)]⟩) := by
  constructor
  · intro e h
    induction h with
    | number n => intro env; rfl
    | add a b _ _ iha ihb =>
        intro env
        simp only [interpret_expr, arithDenote, iha env]
        rcases h1 : arithDenote a with q | x
        · simp [h1]
        · simp only [h1, ihb env]
          rcases h2 : arithDenote b with q | y
          · simp [h2]
          · simp [h2]
    | sub a b _ _ iha ihb =>
        intro env
        simp only [interpret_expr, arithDenote, iha env]
        rcases h1 : arithDenote a with q | x
        · simp [h1]
        · simp only [h1, ihb env]
          rcases h2 : arithDenote b with q | y
          · simp [h2]
          · simp [h2]
    | mul a b _ _ iha ihb =>
        intro env
        simp only [interpret_expr, arithDenote, iha env]
        rcases h1 : arithDenote a with q | x
        · simp [h1]
        · simp only [h1, ihb env]
          rcases h2 : arithDenote b with q | y
          · simp [h2]
          · simp [h2]
    | div a b _ _ iha ihb =>
        intro env
        simp only [interpret_expr, arithDenote, iha env]
        rcases h1 : arithDenote a with q | x
        · simp [h1]
        · simp only [h1, ihb env]
          rcases h2 : arithDenote b with q | y
          · simp [h2]
          · by_cases hz : y.isZero <;> simp [h2, hz]
    | mod a b _ _ iha ihb =>
        intro env
        simp only [interpret_expr, arithDenote, iha env]
        rcases h1 : arithDenote a with q | x
        · simp [h1]
        · simp only [h1, ihb env]
          rcases h2 : arithDenote b with q | y
          · simp [h2]
          · simp [h2]
  · intro a b c
    exact ⟨rfl, rfl, rfl, rfl, rfl, rfl, rfl, rfl⟩

/-- C6 witness: the literal sum `1 + 2`. -/
theorem c6_literal_arithmetic_witness :
    interpret_expr [] (.add (.number (.fin ⟨1, 1⟩)) (.number (.fin ⟨2, 1⟩))) =
      match arithDenote (.add (.number (.fin ⟨1, 1⟩)) (.number (.fin ⟨2, 1⟩))) with
      | .ok x => .ok (.number x, ([] : Env))
      | .error q => .error q :=
  c6_literal_arithmetic_matches_ieee_eval.1 _
    (ArithLit.add _ _ (ArithLit.number _) (ArithLit.number _)) []

/-- C7: assigning to an identifier and then reading it back yields exactly
the assigned value; reading an identifier that was never assigned (and is
not the seeded native `print`) fails with `VariableNotDefined` naming that
identifier. -/
theorem c7_write_then_read_consistency :
    (∀ (env env₁ : Env) (x : String) (rhs : Expr) (v : DataType),
      interpret_expr env rhs = .ok (v, env₁) →
      interpret_expr env (.assign x rhs) = .ok (v, envInsert x v env₁)
      ∧ interpret_expr (envInsert x v env₁) (.var x) = .ok (v, envInsert x v env₁))
    ∧ (∀ x : String, ¬(x = "print") →
        interpret_expr get_env (.var x) = .error (.VariableNotDefined x))
    ∧ (∀ (env : Env) (x : String), envGet x env = Option.none →
        interpret_expr env (.var x) = .error (.VariableNotDefined x))
    ∧ (∀ (x : String) (v : F64),
        interpret_prog ⟨[.assign x (.number v), .var x]⟩ = .ok (.number v)) := by
  refine ⟨?_, ?_, ?_, ?_⟩
  · intro env env₁ x rhs v h
    constructor
    · simp [interpret_expr, h]
    · simp [interpret_expr, envGet_insert_self]
  · intro x hx
    simp [interpret_expr, get_env, fill_env, envInsert, envGet, hx]
  · intro env x h
    simp [interpret_expr, h]
  · intro x v
    simp [interpret_prog, interpretStmts, interpret_expr, envGet_insert_self]

/-- C7 witness: assign `5` to `a`, read `a` back; read the unassigned `b`
from the seeded environment. -/
theorem c7_write_then_read_witness :
    (interpret_expr get_env (.assign "a" (.number (.fin ⟨5, 1⟩))) =
      .ok (.number (.fin ⟨5, 1⟩), envInsert "a" (.number (.fin ⟨5, 1⟩)) get_env)
    ∧ interpret_expr (envInsert "a" (.number (.fin ⟨5, 1⟩)) get_env) (.var "a") =
      .ok (.number (.fin ⟨5, 1⟩), envInsert "a" (.number (.fin ⟨5, 1⟩)) get_env))
    ∧ interpret_expr get_env (.var "b") = .error (.VariableNotDefined "b")
    ∧ interpret_expr [] (.var "z") = .error (.VariableNotDefined "z") :=
  ⟨c7_write_then_read_consistency.1 get_env get_env "a" (.number (.fin ⟨5, 1⟩))
      (.number (.fin ⟨5, 1⟩)) rfl,
   c7_write_then_read_consistency.2.1 "b" (by decide),
   c7_write_then_read_consistency.2.2.1 [] "z" rfl⟩

/-- Trivia tokens: the two kinds the token iterator discards. -/
def isTrivia : Token → Bool
  | .whitespace => true
  | .comment => true
  | _ => false

/-- No trivia token occurs in a (successful) tokenizer output. -/
def noTrivia : Except String (List Token) → Bool
  | .error _ => true
  | .ok ts => ts.all (fun t => !(isTrivia t))

theorem noTrivia_cons (t : Token) (ht : isTrivia t = false)
    (r : Except String (List Token)) (hr : noTrivia r = true) :
    noTrivia (r.map (fun ts => t :: ts)) = true := by
  cases r with
  | error m => rfl
  | ok ts =>
      simp only [noTrivia, Except.map, List.all_cons, ht] at hr ⊢
      simp [hr]

theorem lexAll_noTrivia : ∀ (fuel : Nat) (cs : List Char),
    noTrivia (lexAll fuel cs) = true := by
  intro fuel
  induction fuel with
  | zero => intro cs; rfl
  | succ f ih =>
      intro cs
      simp only [lexAll]
      cases next_token cs with
      | eof => rfl
      | crash m => rfl
      | tok t rest =>
          cases t with
          | whitespace => exact ih rest
          | comment => exact ih rest
          | ident s => exact noTrivia_cons (.ident s) rfl _ (ih rest)
          | retKw => exact noTrivia_cons .retKw rfl _ (ih rest)
          | number n => exact noTrivia_cons (.number n) rfl _ (ih rest)
          | string s => exact noTrivia_cons (.string s) rfl _ (ih rest)
          | equals => exact noTrivia_cons .equals rfl _ (ih rest)
          | plus => exact noTrivia_cons .plus rfl _ (ih rest)
          | minus => exact noTrivia_cons .minus rfl _ (ih rest)
          | star => exact noTrivia_cons .star rfl _ (ih rest)
          | slash => exact noTrivia_cons .slash rfl _ (ih rest)
          | percent => exact noTrivia_cons .percent rfl _ (ih rest)
          | lparen => exact noTrivia_cons .lparen rfl _ (ih rest)
          | rparen => exact noTrivia_cons .rparen rfl _ (ih rest)
          | lbracket => exact noTrivia_cons .lbracket rfl _ (ih rest)
          | rbracket => exact noTrivia_cons .rbracket rfl _ (ih rest)
          | comma => exact noTrivia_cons .comma rfl _ (ih rest)
          | semi => exact noTrivia_cons .semi rfl _ (ih rest)

/-- C8 counterexample: removing the whitespace run between the two number
tokens of `1 2;` merges them into one token, so the token-kind sequence
changes (three tokens become two) for two sources differing only in
whitespace between tokens. -/
theorem c8_whitespace_removal_merges_tokens :
    tokenize "1 2;" = .ok [.number (.fin ⟨1, 1⟩), .number (.fin ⟨2, 1⟩), .semi]
    ∧ tokenize "12;" = .ok [.number (.fin ⟨12, 1⟩), .semi]
    ∧ ¬(tokenize "1 2;" = tokenize "12;") :=
  ⟨by decide, by decide, by decide⟩

/-- C8 (amended): whitespace runs and `#`-comments are always discarded —
they never occur in any tokenizer output — and the example pair `"1+2;"`
and `"1 + 2; # note\n"` produces identical token sequences and parses to
identical ASTs; but removing whitespace between two adjacent tokens can
merge them (see the counterexample), so the fully general insert/remove
invariance does not hold. -/
theorem c8_trivia_never_in_token_stream :
    (∀ s : String, noTrivia (tokenize s) = true)
    ∧ tokenize "1+2;" = tokenize "1 + 2; # note\n"
    ∧ (tokenize "1+2;").map parse = (tokenize "1 + 2; # note\n").map parse
    ∧ (tokenize "1+2;").map parse =
        .ok (.ok ⟨[.add (.number (.fin ⟨1, 1⟩)) (.number (.fin ⟨2, 1⟩))]⟩) := by
  have h2 : tokenize "1+2;" = tokenize "1 + 2; # note\n" := by decide
  refine ⟨fun s => lexAll_noTrivia _ _, h2, by rw [h2], ?_⟩
  have h1 : tokenize "1+2;" =
      .ok [.number (.fin ⟨1, 1⟩), .plus, .number (.fin ⟨2, 1⟩), .semi] := by decide
  rw [h1]
  rfl

/-- C9: an assignment whose right-hand side contains no assignment node
changes at most the binding of the assigned name: every other identifier's
binding is unchanged. -/
theorem c9_assign_frame :
    ∀ (env env' : Env) (x : String) (rhs : Expr) (v : DataType),
      NoAssign rhs →
      interpret_expr env (.assign x rhs) = .ok (v, env') →
      ∀ y : String, ¬(y = x) → envGet y env' = envGet y env := by
  intro env env' x rhs v hna hq y hyx
  simp only [interpret_expr] at hq
  rcases h1 : interpret_expr env rhs with q | ⟨val, env₁⟩ <;> simp only [h1] at hq
  · exact absurd hq (by simp)
  · injection hq with hpair
    injection hpair with _ henv
    rw [← henv, envGet_insert_ne x y val hyx env₁]
    exact avoidsAssign_envGet (noAssign_avoids y hna) env val env₁ h1

/-- C9 witness: assigning a literal to `a` leaves the seeded binding of
`print` untouched. -/
theorem c9_assign_frame_witness :
    envGet "print" (envInsert "a" (.number .nan) get_env) = envGet "print" get_env :=
  c9_assign_frame get_env (envInsert "a" (.number .nan) get_env) "a" (.number .nan)
    (.number .nan) (NoAssign.number .nan) rfl "print" (by decide)

/-- Is a runtime value the callable variant? -/
def isFunctionValue : DataType → Bool
  | .function _ => true
  | _ => false

/-- C10 counterexample: the claim fails when the call's argument itself
rebinds `print` back to a function value: `x = print; print = 5;
print((print = x));` first assigns the non-function `5` to `print`, the
argument `(print = x)` succeeds, and yet the call succeeds with `None`
instead of failing with invalid-type. -/
theorem c10_argument_can_rebind_print :
    query "x = print; print = 5; print((print = x));" = .ok DataType.none :=
  query_pipeline_eq _
    [.ident "x", .equals, .ident "print", .semi,
     .ident "print", .equals, .number (.fin ⟨5, 1⟩), .semi,
     .ident "print", .lparen, .lparen, .ident "print", .equals, .ident "x",
     .rparen, .rparen, .semi]
    ⟨[.assign "x" (.var "print"),
      .assign "print" (.number (.fin ⟨5, 1⟩)),
      .function "print" (.assign "print" (.var "x"))]⟩
    _ (by decide) rfl (by decide)

/-- C10 (amended): native-function bindings are ordinary overwritable
environment entries; after a non-function value is bound to `print`,
a call `print(e)` whose argument succeeds and does not itself assign to
`print` fails with `InvalidType "print"` instead of invoking the seeded
native. -/
theorem c10_shadowed_print_fails_invalid_type :
    ∀ (env env₁ : Env) (v w : DataType) (e : Expr),
      isFunctionValue v = false →
      AvoidsAssign "print" e →
      interpret_expr (envInsert "print" v env) e = .ok (w, env₁) →
      interpret_expr (envInsert "print" v env) (.function "print" e) =
        .error (.InvalidType "print") := by
  intro env env₁ v w e hv ha hq
  have hp : envGet "print" env₁ = envGet "print" (envInsert "print" v env) :=
    avoidsAssign_envGet ha _ _ _ hq
  rw [envGet_insert_self] at hp
  simp only [interpret_expr, hq, hp]
  cases v with
  | function f => simp [isFunctionValue] at hv
  | none => rfl
  | number n => rfl
  | string s => rfl
  | list l => rfl

/-- C10 witness: `print` bound to the number 5, argument a literal. -/
theorem c10_shadowed_print_witness :
    interpret_expr (envInsert "print" (.number (.fin ⟨5, 1⟩)) [])
      (.function "print" (.number .nan)) = .error (.InvalidType "print") :=
  c10_shadowed_print_fails_invalid_type [] (envInsert "print" (.number (.fin ⟨5, 1⟩)) [])
    (.number (.fin ⟨5, 1⟩)) (.number .nan) (.number .nan) rfl
    (AvoidsAssign.number .nan) rfl
